import Mathlib

/-!
Shallow embedding of the grid ranking core of the GMB local rank tracker:
`src/types.ts` (data model) and `src/services/mockDataService.ts`
(`parseGridSize`, `generateScanResults`).

Modelling conventions:
* JavaScript numbers are embedded as `ℚ` where the code does arithmetic on
  them (coordinates, averages); machine-float rounding is out of scope.
* The per-candidate score `(1 / (getDistanceKm(..) + 0.1)) * (0.8 +
  Math.random() * 0.4)` mixes transcendental functions with randomness and
  is only ever used by the sort comparator, so it is abstracted as an
  oracle `score : ℕ → Business → S` (point id → business → score) into an
  arbitrary linear order `S`; every theorem below quantifies over all such
  oracles, hence over all possible distance/jitter outcomes.
* `Array.prototype.sort` with comparator `(a, b) => b.score - a.score` is a
  stable sort (ES2019) by descending score; stable sorting w.r.t. a total
  preorder has a unique result, embedded here as insertion sort
  (`stableSort`), which is structurally recursive and kernel-computable.
* The `onProgress` callback is embedded by returning the list of
  `(current, total)` arguments it receives, in call order, alongside the
  scan result.
* Code that can throw is embedded in `Except String`.
-/

namespace GMB

deriving instance DecidableEq for Except

/-- Business record, from `src/types.ts`. -/
structure Business where
  id : String
  name : String
  address : String
  latitude : ℚ
  longitude : ℚ
deriving DecidableEq, Inhabited

/-- Grounding source record, from `src/types.ts`. -/
structure GroundingSource where
  uri : String
  title : String
deriving DecidableEq, Inhabited

/-- Scan settings record, from `src/types.ts`. -/
structure ScanSettings where
  location : Option Business
  searchQuery : String
  gridSize : String
deriving DecidableEq

/-- One ranked entry at a grid point, from `src/types.ts`. -/
structure CompetitorRank where
  rank : ℕ
  business : Business
deriving DecidableEq, Inhabited

/-- Per-grid-point result, from `src/types.ts` (`RankingPoint`). -/
structure RankingPoint where
  id : ℕ
  rank : ℕ
  lat : ℚ
  lng : ℚ
  competitorRanks : List CompetitorRank
deriving DecidableEq, Inhabited

/-- Scan summary, from `src/types.ts` (`ScanResult.summary`): note the
fields are named `top3`/`top10` and hold counts, not percentages. -/
structure ScanSummary where
  averageRank : ℚ
  top3 : ℕ
  top10 : ℕ
deriving DecidableEq, Inhabited

/-- One entry of the sorted competitor list returned by the scan: a
business together with its `averageRank` across all grid points. -/
structure CompetitorStanding where
  business : Business
  averageRank : ℚ
deriving DecidableEq, Inhabited

/-- Scan result record, from `src/types.ts`. -/
structure ScanResult where
  summary : ScanSummary
  rankings : List RankingPoint
  gridSize : String
  competitors : List CompetitorStanding
  sources : List GroundingSource
deriving DecidableEq, Inhabited

/-- Parsed grid specification: the anonymous `{width, height, spanKm}`
record returned by `parseGridSize`. `spanKm = none` models the JS value
`NaN` (possible only when the captured span text contains no digit). -/
structure GridSpec where
  width : ℕ
  height : ℕ
  spanKm : Option ℚ
deriving DecidableEq

/-- Value of `parseInt(s, 10)` on a non-empty all-digit capture. -/
def digitsToNat (cs : List Char) : ℕ :=
  cs.foldl (fun acc c => 10 * acc + (c.toNat - 48)) 0

/-- Value of `parseFloat` on a capture of the class `[\d.]+`: leading
digits, optionally a dot and more digits; everything after a second dot is
ignored by `parseFloat`, and a capture with no leading digit section and no
digit after the first dot yields `NaN` (`none`). -/
def parseFloatQ (cs : List Char) : Option ℚ :=
  let ip := cs.takeWhile Char.isDigit
  match cs.dropWhile Char.isDigit with
  | '.' :: rest =>
      let fp := rest.takeWhile Char.isDigit
      if ip.isEmpty && fp.isEmpty then none
      else some ((digitsToNat ip : ℚ) + (digitsToNat fp : ℚ) / (10 : ℚ) ^ fp.length)
  | _ => if ip.isEmpty then none else some ((digitsToNat ip : ℚ))

/-- Attempt of the regex `/(\d+)\s*x\s*(\d+)/` anchored at the start of
`cs`, returning the two capture groups. Backtracking cannot help this
pattern (shrinking `\d+` or `\s*` leaves a digit or a space where a literal
`x` is required), so greedy matching is exact. -/
def sizeMatchAt (cs : List Char) : Option (List Char × List Char) :=
  let d1 := cs.takeWhile Char.isDigit
  if d1.isEmpty then none
  else
    match (cs.dropWhile Char.isDigit).dropWhile Char.isWhitespace with
    | 'x' :: r3 =>
        let d2 := (r3.dropWhile Char.isWhitespace).takeWhile Char.isDigit
        if d2.isEmpty then none else some (d1, d2)
    | _ => none

/-- Leftmost match of `/(\d+)\s*x\s*(\d+)/`, as `String.prototype.match`
finds it: try every start position from the left. -/
def sizeSearch : List Char → Option (List Char × List Char)
  | [] => none
  | c :: rest =>
    match sizeMatchAt (c :: rest) with
    | some m => some m
    | none => sizeSearch rest

/-- Attempt of the regex `/\(([\d.]+)\s*km\)/` anchored at the start of
`cs`, returning the capture group. As with `sizeMatchAt`, backtracking
cannot help this pattern. -/
def distMatchAt (cs : List Char) : Option (List Char) :=
  match cs with
  | '(' :: r1 =>
      let d := r1.takeWhile (fun c => c.isDigit || c == '.')
      if d.isEmpty then none
      else
        match (r1.dropWhile (fun c => c.isDigit || c == '.')).dropWhile Char.isWhitespace with
        | 'k' :: 'm' :: ')' :: _ => some d
        | _ => none
  | _ => none

/-- Leftmost match of `/\(([\d.]+)\s*km\)/`. -/
def distSearch : List Char → Option (List Char)
  | [] => none
  | c :: rest =>
    match distMatchAt (c :: rest) with
    | some m => some m
    | none => distSearch rest

/-- Embedding of `parseGridSize` from `src/services/mockDataService.ts`:
size and span are matched independently; each falls back (to 7 resp. 1)
exactly when its regex does not match anywhere in the string. -/
def parseGridSize (gridSize : String) : GridSpec :=
  let sizeMatch := sizeSearch gridSize.data
  let distMatch := distSearch gridSize.data
  let width := match sizeMatch with | some m => digitsToNat m.1 | none => 7
  let height := match sizeMatch with | some m => digitsToNat m.2 | none => 7
  let spanKm := match distMatch with | some d => parseFloatQ d | none => some 1
  ⟨width, height, spanKm⟩

/-- Stable insertion of `x` in front of the first element `y` it may
precede (`le x y`), used to embed the stable ES2019 `Array.prototype.sort`:
on ties (`le x y` and `le y x`) the earlier element `x` stays first. -/
def insertBefore (le : α → α → Bool) (x : α) : List α → List α
  | [] => [x]
  | y :: ys => if le x y then x :: y :: ys else y :: insertBefore le x ys

/-- Stable sort by insertion; extensionally equal to any stable sort with
the same total comparator, in particular to the JS engine's sort. -/
def stableSort (le : α → α → Bool) : List α → List α
  | [] => []
  | x :: xs => insertBefore le x (stableSort le xs)

variable {S : Type} [LinearOrder S]

/-- Per-point ranking step of `generateScanResults`: score every candidate
(the scores are supplied by the oracle `sc`), sort the scored list by
descending score with the comparator `(a, b) => b.score - a.score`, and
assign `rank = index + 1`. -/
def rankCandidates (allBusinesses : List Business) (sc : Business → S) :
    List CompetitorRank :=
  let businessScores := allBusinesses.map (fun business => (business, sc business))
  let sorted := stableSort (fun a b => decide (b.2 ≤ a.2)) businessScores
  sorted.enum.map (fun p => ⟨p.1 + 1, p.2.1⟩)

/-- Embedding of the source expression
`competitorRanks.find(cr => cr.business.id === targetBusiness.id)?.rank || 21`:
the optional chain plus `|| 21` yields 21 both when no entry matches and
when the matched rank is falsy (0). -/
def targetBusinessRank (competitorRanks : List CompetitorRank)
    (targetId : String) : ℕ :=
  match competitorRanks.find? (fun cr => cr.business.id == targetId) with
  | some cr => if cr.rank = 0 then 21 else cr.rank
  | none => 21

/-- Construction of one `RankingPoint` in the scan loop body. -/
def rankPointAt (allBusinesses : List Business) (targetId : String)
    (pointId : ℕ) (lat lng : ℚ) (sc : Business → S) : RankingPoint :=
  let competitorRanks := rankCandidates allBusinesses sc
  { id := pointId
    rank := targetBusinessRank competitorRanks targetId
    lat := lat
    lng := lng
    competitorRanks := competitorRanks }

/-- Latitude degree length constant from the source. -/
def LAT_DEG_IN_KM : ℚ := 111.132

/-- Local `stepKm` of the scan loop:
`maxDimension > 1 ? spanKm / (maxDimension - 1) : 0` with
`maxDimension = Math.max(width, height)`. -/
def stepKmOf (width height : ℕ) (spanKm : ℚ) : ℚ :=
  if 1 < max width height then spanKm / ((max width height : ℚ) - 1) else 0

/-- Local `stepLat = stepKm / LAT_DEG_IN_KM` of the scan loop. -/
def stepLatOf (width height : ℕ) (spanKm : ℚ) : ℚ :=
  stepKmOf width height spanKm / LAT_DEG_IN_KM

/-- Local `stepLng = stepKm / LNG_DEG_IN_KM` of the scan loop;
`lngDegInKm` abstracts `111.320 * Math.cos(latitude * π / 180)`, which is
transcendental; all theorems quantify over it. -/
def stepLngOf (width height : ℕ) (spanKm lngDegInKm : ℚ) : ℚ :=
  stepKmOf width height spanKm / lngDegInKm

/-- Local `startLat = latitude + ((height - 1) / 2) * stepLat`. -/
def startLatOf (targetBusiness : Business) (width height : ℕ) (spanKm : ℚ) : ℚ :=
  targetBusiness.latitude + (((height : ℚ) - 1) / 2) * stepLatOf width height spanKm

/-- Local `startLng = longitude - ((width - 1) / 2) * stepLng`. -/
def startLngOf (targetBusiness : Business) (width height : ℕ)
    (spanKm lngDegInKm : ℚ) : ℚ :=
  targetBusiness.longitude -
    (((width : ℚ) - 1) / 2) * stepLngOf width height spanKm lngDegInKm

/-- The double scan loop of `generateScanResults` (rows outer, columns
inner), producing for every grid point the `(current, total)` argument pair
passed to `onProgress` together with the `RankingPoint` pushed onto
`rankings`. The let-bound locals of the source are the named definitions
above. -/
def scanTrace (targetBusiness : Business) (competitors : List Business)
    (width height : ℕ) (spanKm lngDegInKm : ℚ)
    (score : ℕ → Business → S) : List ((ℕ × ℕ) × RankingPoint) :=
  let totalPoints := width * height
  let allBusinesses := targetBusiness :: competitors
  (List.range height).flatMap (fun r =>
    (List.range width).map (fun c =>
      let pointId := r * width + c
      ((pointId + 1, totalPoints),
        rankPointAt allBusinesses targetBusiness.id pointId
          (startLatOf targetBusiness width height spanKm -
            (r : ℚ) * stepLatOf width height spanKm)
          (startLngOf targetBusiness width height spanKm lngDegInKm +
            (c : ℚ) * stepLngOf width height spanKm lngDegInKm)
          (score pointId))))

/-- Embedding of `averageRank.toFixed(1)` followed by `parseFloat`: round
to one decimal, ties away from zero (the ECMAScript `toFixed` rounding; a
negative argument is formatted as `-` plus `toFixed` of its negation). -/
def toFixed1 (q : ℚ) : ℚ :=
  if q < 0 then -((⌊(-q) * 10 + 1 / 2⌋ : ℚ) / 10) else (⌊q * 10 + 1 / 2⌋ : ℚ) / 10

/-- Insertion-order key list of the `businessRankSums` record: JS object
string keys enumerate in first-assignment order. -/
def dedupKeepFirst : List String → List String
  | [] => []
  | x :: xs => x :: (dedupKeepFirst xs).filter (fun y => !(y == x))

/-- Business stored under key `i` of `businessRankSums`: the last
`forEach` assignment for a given id wins. -/
def recordBusiness (allBusinesses : List Business) (i : String) : Option Business :=
  allBusinesses.reverse.find? (fun b => b.id == i)

/-- Accumulated `total` field for id `i`: sum of the ranks of every entry
with that business id across all points. -/
def idRankTotal (rankings : List RankingPoint) (i : String) : ℕ :=
  (rankings.map (fun p =>
    ((p.competitorRanks.filter (fun cr => cr.business.id == i)).map
      (fun cr => cr.rank)).sum)).sum

/-- Accumulated `count` field for id `i`. -/
def idRankCount (rankings : List RankingPoint) (i : String) : ℕ :=
  (rankings.map (fun p =>
    (p.competitorRanks.filter (fun cr => cr.business.id == i)).length)).sum

/-- The sorted competitor list (`sortedCompetitorList`) of the source:
average rank per distinct business id (99 when the id was never counted),
sorted ascending by average rank with the stable comparator
`(a, b) => a.averageRank - b.averageRank`. -/
def competitorStandings (allBusinesses : List Business)
    (rankings : List RankingPoint) : List CompetitorStanding :=
  let ids := dedupKeepFirst (allBusinesses.map (fun b => b.id))
  let standings := ids.filterMap (fun i =>
    (recordBusiness allBusinesses i).map (fun b =>
      { business := b
        averageRank :=
          if 0 < idRankCount rankings i then
            (idRankTotal rankings i : ℚ) / (idRankCount rankings i : ℚ)
          else 99 }))
  stableSort (fun a b => decide (a.averageRank ≤ b.averageRank)) standings

/-- Embedding of `generateScanResults`. The result carries the
`ScanResult` plus the list of `(current, total)` pairs passed to
`onProgress`, in call order. A `none` parsed span (JS `NaN`) is defaulted
to 0 here; no claim exercises such an input. -/
def generateScanResults (settings : ScanSettings) (competitors : List Business)
    (sources : List GroundingSource) (lngDegInKm : ℚ)
    (score : ℕ → Business → S) : Except String (ScanResult × List (ℕ × ℕ)) :=
  match settings.location with
  | none => .error "Location must be provided for a scan."
  | some targetBusiness =>
    let spec := parseGridSize settings.gridSize
    let trace := scanTrace targetBusiness competitors spec.width spec.height
      (spec.spanKm.getD 0) lngDegInKm score
    let rankings := trace.map (fun t => t.2)
    let totalRank : ℕ := rankings.foldl (fun acc curr => acc + curr.rank) 0
    let averageRank : ℚ := (totalRank : ℚ) / (rankings.length : ℚ)
    let top3 := (rankings.filter (fun r => r.rank ≤ 3)).length
    let top10 := (rankings.filter (fun r => r.rank ≤ 10)).length
    .ok ({ summary := { averageRank := toFixed1 averageRank, top3 := top3, top10 := top10 }
           rankings := rankings
           gridSize := settings.gridSize
           competitors := competitorStandings (targetBusiness :: competitors) rankings
           sources := sources },
         trace.map (fun t => t.1))

/-- Sequencing of a fallible step over a list in `Except`, mirroring a JS
loop whose body may throw and which contains no `try`/`catch`: the first
failure aborts the whole loop. -/
def mapE (f : α → Except String β) : List α → Except String (List β)
  | [] => .ok []
  | x :: xs => do
      let y ← f x
      let ys ← mapE f xs
      pure (y :: ys)

/-- The scan loop with a fallible per-point scoring step (`scoreE` models
the score closure over `allBusinesses`, the only loop-body code that can
throw, e.g. on malformed candidate data). `generateScanResults` contains no
`try`/`catch`, so the embedding sequences the points with plain `Except`
bind: any per-point failure propagates. -/
def scanTraceE (targetBusiness : Business) (competitors : List Business)
    (width height : ℕ) (spanKm lngDegInKm : ℚ)
    (scoreE : ℕ → Except String (Business → S)) :
    Except String (List ((ℕ × ℕ) × RankingPoint)) :=
  let totalPoints := width * height
  let allBusinesses := targetBusiness :: competitors
  (mapE (fun r =>
    mapE (fun c =>
      (scoreE (r * width + c)).map (fun sc =>
        ((r * width + c + 1, totalPoints),
          rankPointAt allBusinesses targetBusiness.id (r * width + c)
            (startLatOf targetBusiness width height spanKm -
              (r : ℚ) * stepLatOf width height spanKm)
            (startLngOf targetBusiness width height spanKm lngDegInKm +
              (c : ℚ) * stepLngOf width height spanKm lngDegInKm) sc)))
      (List.range width))
    (List.range height)).map (fun rows => rows.flatten)

/-! Helper lemmas about the embedded operations. -/

@[simp] lemma rankPointAt_id (allB : List Business) (tid : String) (pid : ℕ)
    (lat lng : ℚ) (sc : Business → S) :
    (rankPointAt allB tid pid lat lng sc).id = pid := rfl

@[simp] lemma rankPointAt_lat (allB : List Business) (tid : String) (pid : ℕ)
    (lat lng : ℚ) (sc : Business → S) :
    (rankPointAt allB tid pid lat lng sc).lat = lat := rfl

@[simp] lemma rankPointAt_lng (allB : List Business) (tid : String) (pid : ℕ)
    (lat lng : ℚ) (sc : Business → S) :
    (rankPointAt allB tid pid lat lng sc).lng = lng := rfl

@[simp] lemma rankPointAt_rank (allB : List Business) (tid : String) (pid : ℕ)
    (lat lng : ℚ) (sc : Business → S) :
    (rankPointAt allB tid pid lat lng sc).rank =
      targetBusinessRank (rankCandidates allB sc) tid := rfl

@[simp] lemma rankPointAt_competitorRanks (allB : List Business) (tid : String)
    (pid : ℕ) (lat lng : ℚ) (sc : Business → S) :
    (rankPointAt allB tid pid lat lng sc).competitorRanks =
      rankCandidates allB sc := rfl

lemma insertBefore_perm (le : α → α → Bool) (x : α) :
    ∀ l : List α, (insertBefore le x l).Perm (x :: l)
  | [] => List.Perm.refl _
  | y :: ys => by
      rw [insertBefore]
      by_cases h : le x y = true
      · rw [if_pos h]
      · rw [if_neg h]
        exact ((insertBefore_perm le x ys).cons y).trans (List.Perm.swap x y ys)

lemma stableSort_perm (le : α → α → Bool) :
    ∀ l : List α, (stableSort le l).Perm l
  | [] => List.Perm.refl _
  | x :: xs =>
      (insertBefore_perm le x (stableSort le xs)).trans
        ((stableSort_perm le xs).cons x)

lemma stableSort_length (le : α → α → Bool) (l : List α) :
    (stableSort le l).length = l.length :=
  (stableSort_perm le l).length_eq

lemma enumFrom_map_rank {α : Type} :
    ∀ (l : List α) (k : ℕ),
      (List.enumFrom k l).map (fun p => p.1 + 1) = List.range' (k + 1) l.length
  | [], _ => rfl
  | x :: xs, k => by
      rw [List.enumFrom_cons, List.map_cons, List.length_cons, List.range'_succ,
        enumFrom_map_rank xs (k + 1)]

/-- Flattening the row-major double loop over a `w × h` grid into a single
loop over flat point indices. -/
lemma range_flatMap_grid {α : Type} (w h : ℕ) (g : ℕ → ℕ → α) :
    (List.range h).flatMap (fun r => (List.range w).map (g r)) =
      (List.range (h * w)).map (fun k => g (k / w) (k % w)) := by
  induction h with
  | zero => simp
  | succ n ih =>
      rw [List.range_succ, List.flatMap_append, ih, Nat.succ_mul, List.range_add,
        List.map_append, List.flatMap_cons, List.flatMap_nil, List.append_nil,
        List.map_map]
      congr 1
      refine List.map_congr_left (fun x hx => ?_)
      have hxw : x < w := List.mem_range.mp hx
      have hw : 0 < w := lt_of_le_of_lt (Nat.zero_le x) hxw
      have hdiv : (n * w + x) / w = n := by
        rw [Nat.mul_comm n w, Nat.mul_add_div hw, Nat.div_eq_of_lt hxw, Nat.add_zero]
      have hmod : (n * w + x) % w = x := by
        rw [Nat.mul_comm n w, Nat.mul_add_mod, Nat.mod_eq_of_lt hxw]
      simp [Function.comp, hdiv, hmod]

lemma enumFrom_map_snd_comp {α β : Type} (f : α → β) :
    ∀ (l : List α) (k : ℕ), (List.enumFrom k l).map (fun p => f p.2) = l.map f
  | [], _ => rfl
  | x :: xs, k => by
      rw [List.enumFrom_cons, List.map_cons, List.map_cons,
        enumFrom_map_snd_comp f xs (k + 1)]

lemma rankCandidates_length (businesses : List Business) (sc : Business → S) :
    (rankCandidates businesses sc).length = businesses.length := by
  simp [rankCandidates, List.enum, stableSort_length]

lemma rankCandidates_ranks (businesses : List Business) (sc : Business → S) :
    (rankCandidates businesses sc).map (fun cr => cr.rank) =
      List.range' 1 businesses.length := by
  have h1 : (rankCandidates businesses sc).map (fun cr => cr.rank) =
      (List.enumFrom 0
        (stableSort (fun a b => decide (b.2 ≤ a.2))
          (businesses.map (fun business => (business, sc business))))).map
        (fun p => p.1 + 1) := by
    simp [rankCandidates, List.enum, List.map_map]
  rw [h1, enumFrom_map_rank, stableSort_length, List.length_map]

lemma rankCandidates_perm (businesses : List Business) (sc : Business → S) :
    ((rankCandidates businesses sc).map (fun cr => cr.business)).Perm businesses := by
  have h1 : (rankCandidates businesses sc).map (fun cr => cr.business) =
      (stableSort (fun a b => decide (b.2 ≤ a.2))
        (businesses.map (fun business => (business, sc business)))).map
        (fun p => p.1) := by
    simp only [rankCandidates, List.enum, List.map_map]
    exact enumFrom_map_snd_comp (fun q : Business × S => q.1) _ 0
  rw [h1]
  have h2 := (stableSort_perm (fun a b : Business × S => decide (b.2 ≤ a.2))
    (businesses.map (fun business => (business, sc business)))).map
    (fun q : Business × S => q.1)
  refine h2.trans ?_
  have h3 : (businesses.map (fun business => (business, sc business))).map
      (fun q : Business × S => q.1) = businesses := by
    rw [List.map_map]
    exact List.map_id' businesses
  rw [h3]

lemma rank_mem_bounds (businesses : List Business) (sc : Business → S)
    (cr : CompetitorRank) (hcr : cr ∈ rankCandidates businesses sc) :
    1 ≤ cr.rank ∧ cr.rank ≤ businesses.length := by
  have hmem : cr.rank ∈ (rankCandidates businesses sc).map (fun cr => cr.rank) :=
    List.mem_map_of_mem _ hcr
  rw [rankCandidates_ranks] at hmem
  have h := List.mem_range'_1.mp hmem
  omega

lemma find_target_isSome (businesses : List Business) (sc : Business → S)
    (b0 : Business) (hb : b0 ∈ businesses) :
    ((rankCandidates businesses sc).find?
      (fun cr => cr.business.id == b0.id)).isSome = true := by
  rw [List.find?_isSome]
  have hmem : b0 ∈ (rankCandidates businesses sc).map (fun cr => cr.business) :=
    ((rankCandidates_perm businesses sc).mem_iff).mpr hb
  obtain ⟨cr, hcr, hcrb⟩ := List.mem_map.mp hmem
  exact ⟨cr, hcr, by rw [hcrb]; exact beq_self_eq_true b0.id⟩

lemma targetBusinessRank_bounds (businesses : List Business) (sc : Business → S)
    (b0 : Business) (hb : b0 ∈ businesses) :
    1 ≤ targetBusinessRank (rankCandidates businesses sc) b0.id ∧
      targetBusinessRank (rankCandidates businesses sc) b0.id ≤ businesses.length := by
  rw [targetBusinessRank]
  cases hfind : (rankCandidates businesses sc).find?
      (fun cr => cr.business.id == b0.id) with
  | none =>
      have := find_target_isSome businesses sc b0 hb
      rw [hfind] at this
      simp at this
  | some cr =>
      have hcr : cr ∈ rankCandidates businesses sc := List.mem_of_find?_eq_some hfind
      have hbd := rank_mem_bounds businesses sc cr hcr
      have hne : ¬ cr.rank = 0 := by omega
      simpa [hne] using hbd

lemma rankCandidates_count_one (businesses : List Business) (sc : Business → S)
    (hnd : (businesses.map (fun b => b.id)).Nodup) (b : Business)
    (hb : b ∈ businesses) :
    ((rankCandidates businesses sc).filter
      (fun cr => cr.business.id == b.id)).length = 1 := by
  rw [← List.countP_eq_length_filter]
  have h1 : (rankCandidates businesses sc).countP (fun cr => cr.business.id == b.id) =
      ((rankCandidates businesses sc).map (fun cr => cr.business)).countP
        (fun b2 => b2.id == b.id) := by
    rw [List.countP_map]
    rfl
  have h2 : ((rankCandidates businesses sc).map (fun cr => cr.business)).countP
      (fun b2 => b2.id == b.id) = businesses.countP (fun b2 => b2.id == b.id) :=
    (rankCandidates_perm businesses sc).countP_eq _
  have h3 : businesses.countP (fun b2 => b2.id == b.id) =
      (businesses.map (fun b2 => b2.id)).countP (fun i => i == b.id) := by
    rw [List.countP_map]
    rfl
  have h4 : (businesses.map (fun b2 => b2.id)).countP (fun i => i == b.id) =
      (businesses.map (fun b2 => b2.id)).count b.id := rfl
  have h5 : (businesses.map (fun b2 => b2.id)).count b.id = 1 :=
    List.count_eq_one_of_mem hnd (List.mem_map_of_mem _ hb)
  rw [h1, h2, h3, h4, h5]

/-- The `rankings` array accumulated by the scan loop: second components of
the trace. -/
def scanRankings (targetBusiness : Business) (competitors : List Business)
    (width height : ℕ) (spanKm lngDegInKm : ℚ)
    (score : ℕ → Business → S) : List RankingPoint :=
  (scanTrace targetBusiness competitors width height spanKm lngDegInKm score).map
    (fun t => t.2)

/-- Structure of the rankings list: one `rankPointAt` per flat point index
`k < height * width`, with point id exactly `k`. The coordinate functions
are abstracted since no per-point property below depends on them. -/
lemma scanRankings_shape (tb : Business) (comps : List Business)
    (w h : ℕ) (span lngDeg : ℚ) (sc : ℕ → Business → S) :
    ∃ lat lng : ℕ → ℚ,
      scanRankings tb comps w h span lngDeg sc =
        (List.range (h * w)).map (fun k =>
          rankPointAt (tb :: comps) tb.id k (lat k) (lng k) (sc k)) := by
  rw [scanRankings, scanTrace, List.map_flatMap]
  simp only [List.map_map, Function.comp]
  rw [range_flatMap_grid]
  refine ⟨fun k => startLatOf tb w h span - ((k / w : ℕ) : ℚ) * stepLatOf w h span,
    fun k => startLngOf tb w h span lngDeg +
      ((k % w : ℕ) : ℚ) * stepLngOf w h span lngDeg, ?_⟩
  refine List.map_congr_left (fun k _ => ?_)
  have hk : k / w * w + k % w = k := by
    rw [Nat.mul_comm]
    exact Nat.div_add_mod k w
  simp only [Function.comp_apply, hk]

/-- The `(current, total)` pairs passed to `onProgress`: first components of
the trace. -/
lemma scanTrace_map_fst (tb : Business) (comps : List Business)
    (w h : ℕ) (span lngDeg : ℚ) (sc : ℕ → Business → S) :
    (scanTrace tb comps w h span lngDeg sc).map (fun t => t.1) =
      (List.range (h * w)).map (fun k => (k + 1, w * h)) := by
  rw [scanTrace, List.map_flatMap]
  simp only [List.map_map, Function.comp]
  rw [range_flatMap_grid]
  refine List.map_congr_left (fun k _ => ?_)
  have hk : k / w * w + k % w = k := by
    rw [Nat.mul_comm]
    exact Nat.div_add_mod k w
  simp only [Function.comp_apply, hk]

lemma sum_map_range (f : ℕ → ℚ) :
    ∀ n : ℕ, ((List.range n).map f).sum = ∑ i ∈ Finset.range n, f i
  | 0 => by simp
  | n + 1 => by
      rw [List.range_succ, List.map_append, List.sum_append, sum_map_range f n,
        Finset.sum_range_succ]
      simp

lemma sum_flatMap_rows (w h : ℕ) (f : ℕ → ℕ → ℚ) :
    ((List.range h).flatMap (fun r => (List.range w).map (f r))).sum =
      ∑ r ∈ Finset.range h, ∑ c ∈ Finset.range w, f r c := by
  induction h with
  | zero => simp
  | succ n ih =>
      rw [List.range_succ, List.flatMap_append, List.sum_append, ih,
        Finset.sum_range_succ, List.flatMap_cons, List.flatMap_nil,
        List.append_nil, sum_map_range]

lemma sum_range_cast_q :
    ∀ n : ℕ, (∑ i ∈ Finset.range n, (i : ℚ)) = n * (n - 1) / 2
  | 0 => by simp
  | n + 1 => by
      rw [Finset.sum_range_succ, sum_range_cast_q n]
      push_cast
      field_simp
      ring

@[simp] lemma except_isOk_ok (y : α) : (Except.ok y : Except String α).isOk = true := rfl

@[simp] lemma except_isOk_error (e : String) :
    (Except.error e : Except String α).isOk = false := rfl

lemma isOk_exceptMap (g : α → β) :
    ∀ e : Except String α, (Except.map g e).isOk = e.isOk := by
  intro e
  cases e <;> rfl

lemma mapE_isOk_cons (f : α → Except String β) (x : α) (xs : List α) :
    (mapE f (x :: xs)).isOk = ((f x).isOk && (mapE f xs).isOk) := by
  rw [mapE]
  cases f x with
  | error e => rfl
  | ok y =>
      cases mapE f xs with
      | error e => rfl
      | ok ys => rfl

lemma mapE_isOk (f : α → Except String β) (l : List α) :
    (mapE f l).isOk = true ↔ ∀ x ∈ l, (f x).isOk = true := by
  induction l with
  | nil => simp [mapE]
  | cons x xs ih => simp [mapE_isOk_cons, Bool.and_eq_true, ih, List.forall_mem_cons]

lemma mapE_ok_of_ok (f : α → Except String β) (g : α → β)
    (hfg : ∀ x, f x = .ok (g x)) :
    ∀ l : List α, mapE f l = .ok (l.map g)
  | [] => rfl
  | x :: xs => by
      rw [mapE, hfg x, mapE_ok_of_ok f g hfg xs, List.map_cons]
      rfl

lemma foldl_rank_sum :
    ∀ (l : List RankingPoint) (a : ℕ),
      l.foldl (fun acc curr => acc + curr.rank) a = a + (l.map (fun p => p.rank)).sum
  | [], a => by simp
  | p :: ps, a => by
      rw [List.foldl_cons, foldl_rank_sum ps (a + p.rank), List.map_cons,
        List.sum_cons, Nat.add_assoc]

/-- Characterization of the summary fields of a successful scan: the
average is the `toFixed(1)`-rounded mean of the per-point target ranks, and
`top3`/`top10` are counts of points at rank at most 3 resp. 10. -/
lemma summary_spec (tb : Business) (q gs : String) (comps : List Business)
    (srcs : List GroundingSource) (L : ℚ) (sc : ℕ → Business → S)
    (res : ScanResult) (calls : List (ℕ × ℕ))
    (hok : generateScanResults ⟨some tb, q, gs⟩ comps srcs L sc = .ok (res, calls)) :
    res.summary.averageRank =
      toFixed1 (((res.rankings.map (fun p => p.rank)).sum : ℚ) /
        (res.rankings.length : ℚ))
    ∧ res.summary.top3 = (res.rankings.filter (fun p => p.rank ≤ 3)).length
    ∧ res.summary.top10 = (res.rankings.filter (fun p => p.rank ≤ 10)).length := by
  rw [generateScanResults] at hok
  simp only [Except.ok.injEq, Prod.mk.injEq] at hok
  obtain ⟨hres, hcalls⟩ := hok
  subst hres
  refine ⟨?_, rfl, rfl⟩
  simp [foldl_rank_sum]
  rfl

lemma scanRankings_length (tb : Business) (comps : List Business)
    (w h : ℕ) (span lngDeg : ℚ) (sc : ℕ → Business → S) :
    (scanRankings tb comps w h span lngDeg sc).length = h * w := by
  obtain ⟨lat, lng, heq⟩ := scanRankings_shape tb comps w h span lngDeg sc
  rw [heq, List.length_map, List.length_range]

lemma scanRankings_map_lat (tb : Business) (comps : List Business)
    (w h : ℕ) (span lngDeg : ℚ) (sc : ℕ → Business → S) :
    (scanRankings tb comps w h span lngDeg sc).map (fun p => p.lat) =
      (List.range h).flatMap (fun r => (List.range w).map (fun _ =>
        startLatOf tb w h span - (r : ℚ) * stepLatOf w h span)) := by
  rw [scanRankings, scanTrace, List.map_flatMap, List.map_flatMap]
  simp only [List.map_map]
  refine congrArg (List.range h).flatMap (funext fun r => ?_)
  refine List.map_congr_left (fun c _ => ?_)
  simp [Function.comp]

lemma scanRankings_map_lng (tb : Business) (comps : List Business)
    (w h : ℕ) (span lngDeg : ℚ) (sc : ℕ → Business → S) :
    (scanRankings tb comps w h span lngDeg sc).map (fun p => p.lng) =
      (List.range h).flatMap (fun _r => (List.range w).map (fun (c : ℕ) =>
        startLngOf tb w h span lngDeg +
          (c : ℚ) * stepLngOf w h span lngDeg)) := by
  rw [scanRankings, scanTrace, List.map_flatMap, List.map_flatMap]
  simp only [List.map_map]
  refine congrArg (List.range h).flatMap (funext fun r => ?_)
  refine List.map_congr_left (fun c _ => ?_)
  simp [Function.comp]

lemma scanRankings_lat_sum (tb : Business) (comps : List Business)
    (w h : ℕ) (span lngDeg : ℚ) (sc : ℕ → Business → S) :
    ((scanRankings tb comps w h span lngDeg sc).map (fun p => p.lat)).sum =
      (w : ℚ) * (h : ℚ) * tb.latitude := by
  rw [scanRankings_map_lat, sum_flatMap_rows]
  simp only [Finset.sum_const, Finset.card_range, nsmul_eq_mul]
  have hsplit : ∀ r : ℕ,
      (w : ℚ) * (startLatOf tb w h span - (r : ℚ) * stepLatOf w h span) =
        (w : ℚ) * startLatOf tb w h span -
          ((w : ℚ) * stepLatOf w h span) * (r : ℚ) := by
    intro r
    ring
  rw [Finset.sum_congr rfl (fun r _ => hsplit r), Finset.sum_sub_distrib,
    Finset.sum_const, Finset.card_range, nsmul_eq_mul, ← Finset.mul_sum,
    sum_range_cast_q, startLatOf]
  ring

lemma scanRankings_lng_sum (tb : Business) (comps : List Business)
    (w h : ℕ) (span lngDeg : ℚ) (sc : ℕ → Business → S) :
    ((scanRankings tb comps w h span lngDeg sc).map (fun p => p.lng)).sum =
      (w : ℚ) * (h : ℚ) * tb.longitude := by
  rw [scanRankings_map_lng, sum_flatMap_rows]
  have hinner : (∑ c ∈ Finset.range w,
      (startLngOf tb w h span lngDeg + (c : ℚ) * stepLngOf w h span lngDeg)) =
        (w : ℚ) * startLngOf tb w h span lngDeg +
          stepLngOf w h span lngDeg * ((w : ℚ) * ((w : ℚ) - 1) / 2) := by
    rw [Finset.sum_add_distrib, Finset.sum_const, Finset.card_range, nsmul_eq_mul]
    have hs : (∑ c ∈ Finset.range w, (c : ℚ) * stepLngOf w h span lngDeg) =
        (∑ c ∈ Finset.range w, (c : ℚ)) * stepLngOf w h span lngDeg := by
      rw [Finset.sum_mul]
    rw [hs, sum_range_cast_q]
    ring
  rw [Finset.sum_congr rfl (fun r _ => hinner), Finset.sum_const,
    Finset.card_range, nsmul_eq_mul, startLngOf]
  ring

lemma headI_mem_of_ne {α : Type} [Inhabited α] :
    ∀ l : List α, l ≠ [] → l.headI ∈ l
  | [], hne => absurd rfl hne
  | x :: xs, _ => List.mem_cons_self x xs

/-- A one-candidate ranking is the single entry with rank 1. -/
lemma rankCandidates_single (b : Business) (f : Business → S) :
    rankCandidates [b] f = [⟨1, b⟩] := rfl

lemma targetBusinessRank_single (b : Business) :
    targetBusinessRank [⟨1, b⟩] b.id = 1 := by
  rw [targetBusinessRank]
  simp [List.find?]

/-! Concrete fixtures used by witnesses and counterexamples. -/

/-- Target business fixture. -/
def tEx : Business := ⟨"t", "Target", "addr", 0, 0⟩

/-- Competitor business fixture. -/
def bEx : Business := ⟨"b", "Competitor", "addr", 0, 0⟩

/-- Score oracle making the target win at every point except point 3, where
the competitor wins (target rank 2 there). -/
def scEx : ℕ → Business → ℕ := fun pid b =>
  if pid == 3 then (if b.id == "t" then 1 else 2) else (if b.id == "t" then 2 else 1)

/-- A 2 x 2 scan of `tEx` against `[bEx]` under `scEx`. -/
def wScan1 : Except String (ScanResult × List (ℕ × ℕ)) :=
  generateScanResults (S := ℕ) ⟨some tEx, "q", "2 x 2 (1 km)"⟩ [bEx] [] (2783 / 25) scEx

/-- The `ScanResult` of `wScan1`. -/
def wRes1 : ScanResult :=
  match wScan1 with
  | .ok (r, _) => r
  | .error _ => default

/-- The progress-call list of `wScan1`. -/
def wCalls1 : List (ℕ × ℕ) :=
  match wScan1 with
  | .ok (_, c) => c
  | .error _ => []

/-! Claim theorems. -/

/-- C1 (amended): for every completed scan, the summary holds the
`toFixed(1)`-rounded mean of the per-point target ranks (not the exact
mean), and the fields `top3`/`top10` hold the raw counts of points with
targetRank at most 3 resp. 10 (not percentages). -/
theorem C1_summary_amended (tb : Business) (q gs : String)
    (comps : List Business) (srcs : List GroundingSource) (L : ℚ)
    (sc : ℕ → Business → S) (res : ScanResult) (calls : List (ℕ × ℕ))
    (hok : generateScanResults ⟨some tb, q, gs⟩ comps srcs L sc = .ok (res, calls))
    (_hne : res.rankings ≠ []) :
    res.summary.averageRank =
      toFixed1 (((res.rankings.map (fun p => p.rank)).sum : ℚ) /
        (res.rankings.length : ℚ))
    ∧ res.summary.top3 = (res.rankings.filter (fun p => p.rank ≤ 3)).length
    ∧ res.summary.top10 = (res.rankings.filter (fun p => p.rank ≤ 10)).length :=
  summary_spec tb q gs comps srcs L sc res calls hok

/-- Witness for C1 at a concrete 2 x 2 scan. -/
theorem C1_summary_amended_witness :
    wRes1.summary.averageRank =
      toFixed1 (((wRes1.rankings.map (fun p => p.rank)).sum : ℚ) /
        (wRes1.rankings.length : ℚ))
    ∧ wRes1.summary.top3 = (wRes1.rankings.filter (fun p => p.rank ≤ 3)).length
    ∧ wRes1.summary.top10 = (wRes1.rankings.filter (fun p => p.rank ≤ 10)).length :=
  C1_summary_amended tEx "q" "2 x 2 (1 km)" [bEx] [] (2783 / 25) scEx wRes1 wCalls1
    rfl (by decide)

/-- C1 counterexample: a 2 x 2 scan with target ranks [1, 1, 1, 2] has
exact mean 5/4 = 1.25 but the summary reports averageRank 1.3 (rounded),
and reports top3 = 4 (a count) where the claimed percentage is 100. -/
theorem C1_summary_counterexample :
    wRes1.rankings.map (fun p => p.rank) = [1, 1, 1, 2]
    ∧ (((wRes1.rankings.map (fun p => p.rank)).sum : ℚ) /
        (wRes1.rankings.length : ℚ)) = 5 / 4
    ∧ wRes1.summary.averageRank = 13 / 10
    ∧ (13 / 10 : ℚ) ≠ 5 / 4
    ∧ wRes1.summary.top3 = 4
    ∧ 100 * (((wRes1.rankings.filter (fun p => p.rank ≤ 3)).length : ℚ) /
        (wRes1.rankings.length : ℚ)) = 100
    ∧ (wRes1.summary.top3 : ℚ) ≠ 100 := by
  have hspec := summary_spec (S := ℕ) tEx "q" "2 x 2 (1 km)" [bEx] [] (2783 / 25)
    scEx wRes1 wCalls1 rfl
  have hranks : wRes1.rankings.map (fun p => p.rank) = [1, 1, 1, 2] := by decide
  have hlen : wRes1.rankings.length = 4 := by decide
  have hcast : wRes1.rankings.map (fun p => (p.rank : ℚ)) =
      List.map (fun n : ℕ => (n : ℚ)) (wRes1.rankings.map (fun p => p.rank)) := by
    rw [List.map_map]
    rfl
  have hmean : (((wRes1.rankings.map (fun p => p.rank)).sum : ℚ) /
      (wRes1.rankings.length : ℚ)) = 5 / 4 := by
    show (wRes1.rankings.map (fun p => (p.rank : ℚ))).sum /
      (wRes1.rankings.length : ℚ) = 5 / 4
    rw [hcast, hranks, hlen]
    norm_num
  have htop3 : wRes1.summary.top3 = 4 := by decide
  have havg : wRes1.summary.averageRank = 13 / 10 := by
    rw [hspec.1, hmean, toFixed1, if_neg (by norm_num)]
    norm_num
  refine ⟨hranks, hmean, havg, by norm_num, htop3, ?_, ?_⟩
  · have hc : (wRes1.rankings.filter (fun p => p.rank ≤ 3)).length = 4 := by decide
    rw [hc, hlen]
    norm_num
  · rw [htop3]
    norm_num

/-- C2 (amended): when the target id is absent from a point's ranked
entries, the recorded rank is the hardcoded sentinel 21, regardless of the
candidate count (not `len(candidates) + 1`). -/
theorem C2_sentinel_amended (entries : List CompetitorRank) (tid : String)
    (habs : entries.find? (fun cr => cr.business.id == tid) = none) :
    targetBusinessRank entries tid = 21 := by
  rw [targetBusinessRank, habs]

/-- Witness for C2 on the empty entry list. -/
theorem C2_sentinel_amended_witness : targetBusinessRank [] "t" = 21 :=
  C2_sentinel_amended [] "t" rfl

/-- C2 counterexample: ranking a single candidate whose id differs from the
target id records rank 21, not `len(candidates) + 1 = 2`. -/
theorem C2_sentinel_counterexample :
    targetBusinessRank (rankCandidates (S := ℕ) [bEx] (fun _ => 0)) "t" = 21
    ∧ [bEx].length + 1 = 2
    ∧ (21 : ℕ) ≠ 2 := by decide

/-- Fallible score oracle failing exactly at point 4 of a 3 x 3 grid. -/
def scoreEex : ℕ → Except String (Business → ℕ) := fun pid =>
  if pid == 4 then .error "boom" else .ok (fun _ => 0)

/-- C3 (amended): the scan loop has no per-point error containment: it
succeeds exactly when scoring succeeds at every grid point, so a single
throwing point aborts the whole scan with that error, and no partial
result or skipped-count is produced. -/
theorem C3_partial_failure_amended (tb : Business) (comps : List Business)
    (w h : ℕ) (span L : ℚ) (scoreE : ℕ → Except String (Business → S)) :
    (scanTraceE tb comps w h span L scoreE).isOk = true ↔
      ∀ r < h, ∀ c < w, (scoreE (r * w + c)).isOk = true := by
  simp [scanTraceE, isOk_exceptMap, mapE_isOk, List.mem_range]

/-- Witness for C3: a 2 x 2 scan whose scoring always succeeds is ok. -/
theorem C3_partial_failure_amended_witness :
    (scanTraceE (S := ℕ) tEx [] 2 2 1 1 (fun _ => Except.ok (fun _ => 0))).isOk
      = true :=
  (C3_partial_failure_amended tEx [] 2 2 1 1
    (fun _ => Except.ok (fun _ => 0))).mpr (fun _ _ _ _ => rfl)

/-- C3 counterexample: scoring throws on exactly one of 9 grid points, and
the scan returns the error — not a ScanResult with 8 points and a
skipped-count (no such field exists on `ScanResult`). -/
theorem C3_partial_failure_counterexample :
    scanTraceE (S := ℕ) tEx [] 3 3 1 1 scoreEex = .error "boom"
    ∧ (scanTraceE (S := ℕ) tEx [] 3 3 1 1 scoreEex).isOk = false := by
  decide

/-- C4 (amended): parsing is per-component. Columns and rows fall back to
7 exactly when the size regex has no match anywhere in the string; on a
match they are the two captured digit strings parsed as-is (even when
zero). Independently, spanKm falls back to 1 exactly when the span regex
has no match; on a match it is parseFloat of the capture, used as-is. So
the GridSpec invariant (columns, rows at least 1, spanKm positive) is not
enforced anywhere. -/
theorem C4_fallback_amended (s : String) :
    (sizeSearch s.data = none →
      (parseGridSize s).width = 7 ∧ (parseGridSize s).height = 7)
    ∧ (∀ m, sizeSearch s.data = some m →
      (parseGridSize s).width = digitsToNat m.1
      ∧ (parseGridSize s).height = digitsToNat m.2)
    ∧ (distSearch s.data = none → (parseGridSize s).spanKm = some 1)
    ∧ (∀ d, distSearch s.data = some d →
      (parseGridSize s).spanKm = parseFloatQ d) := by
  refine ⟨fun hs => ?_, fun m hs => ?_, fun hd => ?_, fun d hd => ?_⟩
  · simp [parseGridSize, hs]
  · simp [parseGridSize, hs]
  · simp [parseGridSize, hd]
  · simp [parseGridSize, hd]

/-- Witness for C4 on the two mixed cases: size fallback with a matched
span ("junk (2.5 km)" gives 7 x 7 with the span 2.5 taken as-is), and a
matched size with span fallback ("3 x 4" gives 3 x 4 with span 1). -/
theorem C4_fallback_amended_witness :
    (parseGridSize "junk (2.5 km)").width = 7
    ∧ (parseGridSize "junk (2.5 km)").height = 7
    ∧ (parseGridSize "junk (2.5 km)").spanKm = some (5 / 2)
    ∧ (parseGridSize "3 x 4").width = 3
    ∧ (parseGridSize "3 x 4").height = 4
    ∧ (parseGridSize "3 x 4").spanKm = some 1 := by
  have h1 := C4_fallback_amended "junk (2.5 km)"
  have h2 := C4_fallback_amended "3 x 4"
  have hspan : (parseGridSize "junk (2.5 km)").spanKm = some (5 / 2) := by
    have hv := h1.2.2.2 ['2', '.', '5'] (by decide)
    have hpf : parseFloatQ ['2', '.', '5'] =
        some ((digitsToNat ['2'] : ℚ) + (digitsToNat ['5'] : ℚ) / (10 : ℚ) ^ 1) :=
      rfl
    have hd2 : digitsToNat ['2'] = 2 := by decide
    have hd5 : digitsToNat ['5'] = 5 := by decide
    rw [hv, hpf, hd2, hd5]
    norm_num
  have hw : (parseGridSize "3 x 4").width = 3 := by
    have := (h2.2.1 (['3'], ['4']) (by decide)).1
    rw [this]
    decide
  have hh : (parseGridSize "3 x 4").height = 4 := by
    have := (h2.2.1 (['3'], ['4']) (by decide)).2
    rw [this]
    decide
  exact ⟨(h1.1 (by decide)).1, (h1.1 (by decide)).2, hspan, hw, hh,
    h2.2.2.1 (by decide)⟩

/-- C4 counterexample: "0 x 0 (0 km)" parses to GridSpec(0, 0, 0), a
zero-sized grid, instead of falling back to (7, 7, 1). -/
theorem C4_fallback_counterexample :
    parseGridSize "0 x 0 (0 km)" = ⟨0, 0, some 0⟩
    ∧ ¬ 1 ≤ (parseGridSize "0 x 0 (0 km)").width := by
  decide

/-- C5: "garbage input" parses to the fallback GridSpec(7, 7, 1) and
"5 x 5 (2 km)" parses to GridSpec(5, 5, 2). -/
theorem C5_parse_examples :
    parseGridSize "garbage input" = ⟨7, 7, some 1⟩
    ∧ parseGridSize "5 x 5 (2 km)" = ⟨5, 5, some 2⟩ := by
  decide

/-- C6: the generated grid has exactly width x height points, in row-major
order (the k-th point has id k), the mean of the point latitudes is the
center latitude and the mean of the longitudes is the center longitude
(exactly, over ℚ), and a 1 x 1 grid is the single center point. -/
theorem C6_grid_geometry (tb : Business) (comps : List Business) (w h : ℕ)
    (span lngDeg : ℚ) (sc : ℕ → Business → S) (hw : 1 ≤ w) (hh : 1 ≤ h) :
    (scanRankings tb comps w h span lngDeg sc).length = w * h
    ∧ (∀ k (hk : k < (scanRankings tb comps w h span lngDeg sc).length),
        ((scanRankings tb comps w h span lngDeg sc).get ⟨k, hk⟩).id = k)
    ∧ ((scanRankings tb comps w h span lngDeg sc).map (fun p => p.lat)).sum /
        ((scanRankings tb comps w h span lngDeg sc).length : ℚ) = tb.latitude
    ∧ ((scanRankings tb comps w h span lngDeg sc).map (fun p => p.lng)).sum /
        ((scanRankings tb comps w h span lngDeg sc).length : ℚ) = tb.longitude
    ∧ (w = 1 → h = 1 →
        (scanRankings tb comps w h span lngDeg sc).map (fun p => (p.lat, p.lng)) =
          [(tb.latitude, tb.longitude)]) := by
  have hlen := scanRankings_length (S := S) tb comps w h span lngDeg sc
  have hw0 : (w : ℚ) ≠ 0 := Nat.cast_ne_zero.mpr (by omega)
  have hh0 : (h : ℚ) ≠ 0 := Nat.cast_ne_zero.mpr (by omega)
  refine ⟨by rw [hlen, Nat.mul_comm], ?_, ?_, ?_, ?_⟩
  · intro k hk
    obtain ⟨latf, lngf, heq⟩ := scanRankings_shape tb comps w h span lngDeg sc
    rw [List.get_eq_getElem]
    simp [heq]
  · rw [scanRankings_lat_sum, hlen]
    push_cast
    field_simp
    ring
  · rw [scanRankings_lng_sum, hlen]
    push_cast
    field_simp
    ring
  · intro hw1 hh1
    subst hw1
    subst hh1
    have hr1 : List.range 1 = [0] := rfl
    simp [scanRankings, scanTrace, startLatOf, startLngOf, hr1]

/-- Witness for C6 on a 2 x 3 grid centered at the origin. -/
theorem C6_grid_geometry_witness :
    (scanRankings (S := ℕ) tEx [] 2 3 1 1 (fun _ _ => 0)).length = 2 * 3
    ∧ (∀ k (hk : k < (scanRankings (S := ℕ) tEx [] 2 3 1 1 (fun _ _ => 0)).length),
        ((scanRankings (S := ℕ) tEx [] 2 3 1 1 (fun _ _ => 0)).get ⟨k, hk⟩).id = k)
    ∧ ((scanRankings (S := ℕ) tEx [] 2 3 1 1 (fun _ _ => 0)).map
        (fun p => p.lat)).sum /
        ((scanRankings (S := ℕ) tEx [] 2 3 1 1 (fun _ _ => 0)).length : ℚ) =
        tEx.latitude
    ∧ ((scanRankings (S := ℕ) tEx [] 2 3 1 1 (fun _ _ => 0)).map
        (fun p => p.lng)).sum /
        ((scanRankings (S := ℕ) tEx [] 2 3 1 1 (fun _ _ => 0)).length : ℚ) =
        tEx.longitude
    ∧ (2 = 1 → 3 = 1 →
        (scanRankings (S := ℕ) tEx [] 2 3 1 1 (fun _ _ => 0)).map
          (fun p => (p.lat, p.lng)) = [(tEx.latitude, tEx.longitude)]) :=
  C6_grid_geometry tEx [] 2 3 1 1 (fun _ _ => 0) (by decide) (by decide)

/-- C7: ranking N candidates yields N entries whose ranks are exactly
1..N in order, whose businesses are a permutation of the candidates, and —
when candidate ids are unique — every candidate id appears exactly once,
for every score oracle. -/
theorem C7_rank_completeness (businesses : List Business) (sc : Business → S) :
    (rankCandidates businesses sc).length = businesses.length
    ∧ (rankCandidates businesses sc).map (fun cr => cr.rank) =
        List.range' 1 businesses.length
    ∧ ((rankCandidates businesses sc).map (fun cr => cr.business)).Perm businesses
    ∧ ((businesses.map (fun b => b.id)).Nodup →
        ∀ b ∈ businesses,
          ((rankCandidates businesses sc).filter
            (fun cr => cr.business.id == b.id)).length = 1) :=
  ⟨rankCandidates_length businesses sc, rankCandidates_ranks businesses sc,
   rankCandidates_perm businesses sc,
   fun hnd b hb => rankCandidates_count_one businesses sc hnd b hb⟩

/-- Witness for C7 on two candidates with tied scores. -/
theorem C7_rank_completeness_witness :
    (rankCandidates (S := ℕ) [tEx, bEx] (fun _ => 0)).length = 2
    ∧ (rankCandidates (S := ℕ) [tEx, bEx] (fun _ => 0)).map (fun cr => cr.rank) =
        List.range' 1 2
    ∧ ((rankCandidates (S := ℕ) [tEx, bEx] (fun _ => 0)).map
        (fun cr => cr.business)).Perm [tEx, bEx]
    ∧ ((rankCandidates (S := ℕ) [tEx, bEx] (fun _ => 0)).filter
        (fun cr => cr.business.id == tEx.id)).length = 1 := by
  have h := C7_rank_completeness (S := ℕ) [tEx, bEx] (fun _ => 0)
  exact ⟨h.1, h.2.1, h.2.2.1, h.2.2.2 (by decide) tEx (by decide)⟩

/-- C8: during a scan the progress callback receives exactly
width x height calls, the k-th (0-based) with arguments
(k + 1, width x height), hence strictly increasing currents 1..total, each
within [1, total]. -/
theorem C8_progress_calls (tb : Business) (comps : List Business) (w h : ℕ)
    (span lngDeg : ℚ) (sc : ℕ → Business → S) :
    (scanTrace tb comps w h span lngDeg sc).map (fun t => t.1) =
      (List.range (w * h)).map (fun k => (k + 1, w * h))
    ∧ ((scanTrace tb comps w h span lngDeg sc).map (fun t => t.1)).length = w * h
    ∧ List.Pairwise (fun a b => a.1 < b.1)
        ((scanTrace tb comps w h span lngDeg sc).map (fun t => t.1))
    ∧ ∀ p ∈ (scanTrace tb comps w h span lngDeg sc).map (fun t => t.1),
        1 ≤ p.1 ∧ p.1 ≤ w * h := by
  have h1 : (scanTrace tb comps w h span lngDeg sc).map (fun t => t.1) =
      (List.range (w * h)).map (fun k => (k + 1, w * h)) := by
    rw [scanTrace_map_fst, Nat.mul_comm h w]
  refine ⟨h1, ?_, ?_, ?_⟩
  · rw [h1, List.length_map, List.length_range]
  · rw [h1]
    refine (List.pairwise_map).mpr ?_
    exact (List.pairwise_lt_range (w * h)).imp (fun hab => Nat.succ_lt_succ hab)
  · intro p hp
    rw [h1] at hp
    obtain ⟨k, hk, rfl⟩ := List.mem_map.mp hp
    have hk2 := List.mem_range.mp hk
    exact ⟨Nat.succ_le_succ (Nat.zero_le k), Nat.succ_le_of_lt hk2⟩

/-- Witness for C8 on a 2 x 2 grid. -/
theorem C8_progress_calls_witness :
    (scanTrace (S := ℕ) tEx [] 2 2 1 1 (fun _ _ => 0)).map (fun t => t.1) =
      (List.range (2 * 2)).map (fun k => (k + 1, 2 * 2))
    ∧ ((scanTrace (S := ℕ) tEx [] 2 2 1 1 (fun _ _ => 0)).map
        (fun t => t.1)).length = 2 * 2
    ∧ List.Pairwise (fun a b => a.1 < b.1)
        ((scanTrace (S := ℕ) tEx [] 2 2 1 1 (fun _ _ => 0)).map (fun t => t.1))
    ∧ ∀ p ∈ (scanTrace (S := ℕ) tEx [] 2 2 1 1 (fun _ _ => 0)).map
        (fun t => t.1), 1 ≤ p.1 ∧ p.1 ≤ 2 * 2 :=
  C8_progress_calls tEx [] 2 2 1 1 (fun _ _ => 0)

/-- C9: a scan with an empty competitor list completes with a valid result
in which every point has targetRank 1 and the single ranked entry is the
target with rank 1, for every score oracle. -/
theorem C9_empty_competitors (tb : Business) (q gs : String)
    (srcs : List GroundingSource) (L : ℚ) (sc : ℕ → Business → S) :
    ∃ res calls,
      generateScanResults ⟨some tb, q, gs⟩ [] srcs L sc = .ok (res, calls)
      ∧ ∀ p ∈ res.rankings, p.rank = 1 ∧ p.competitorRanks = [⟨1, tb⟩] := by
  refine ⟨_, _, rfl, ?_⟩
  intro p hp
  have hp2 : p ∈ scanRankings (S := S) tb [] (parseGridSize gs).width
      (parseGridSize gs).height ((parseGridSize gs).spanKm.getD 0) L sc := hp
  obtain ⟨latf, lngf, heq⟩ := scanRankings_shape (S := S) tb []
    (parseGridSize gs).width (parseGridSize gs).height
    ((parseGridSize gs).spanKm.getD 0) L sc
  rw [heq] at hp2
  obtain ⟨k, hk, rfl⟩ := List.mem_map.mp hp2
  constructor
  · rw [rankPointAt_rank, rankCandidates_single, targetBusinessRank_single]
  · rw [rankPointAt_competitorRanks, rankCandidates_single]

/-- Witness for C9 on a 1 x 1 grid. -/
theorem C9_empty_competitors_witness :
    ∃ res calls,
      generateScanResults (S := ℕ) ⟨some tEx, "q", "1 x 1 (1 km)"⟩ [] [] 1
        (fun _ _ => 0) = .ok (res, calls)
      ∧ ∀ p ∈ res.rankings, p.rank = 1 ∧ p.competitorRanks = [⟨1, tEx⟩] :=
  C9_empty_competitors tEx "q" "1 x 1 (1 km)" [] 1 (fun _ _ => 0)

/-- C10: because the candidate list is [target] ++ competitors, the lookup
of the target rank in each point's ranked entries always succeeds (the
sentinel branch is unreachable), and every recorded targetRank lies in
[1, 1 + number of competitors], for every score oracle. -/
theorem C10_target_always_found (tb : Business) (comps : List Business)
    (w h : ℕ) (span lngDeg : ℚ) (sc : ℕ → Business → S) :
    ∀ p ∈ scanRankings tb comps w h span lngDeg sc,
      (p.competitorRanks.find? (fun cr => cr.business.id == tb.id)).isSome = true
      ∧ 1 ≤ p.rank ∧ p.rank ≤ 1 + comps.length := by
  intro p hp
  obtain ⟨latf, lngf, heq⟩ := scanRankings_shape tb comps w h span lngDeg sc
  rw [heq] at hp
  obtain ⟨k, hk, rfl⟩ := List.mem_map.mp hp
  have htb : tb ∈ tb :: comps := List.mem_cons_self tb comps
  have hbounds := targetBusinessRank_bounds (tb :: comps) (sc k) tb htb
  refine ⟨?_, ?_, ?_⟩
  · rw [rankPointAt_competitorRanks]
    exact find_target_isSome (tb :: comps) (sc k) tb htb
  · rw [rankPointAt_rank]
    exact hbounds.1
  · rw [rankPointAt_rank]
    have h2 := hbounds.2
    rw [List.length_cons] at h2
    omega

/-- Witness for C10 on a 1 x 1 grid with one competitor. -/
theorem C10_target_always_found_witness :
    ((scanRankings (S := ℕ) tEx [bEx] 1 1 1 1
        (fun _ _ => 0)).headI.competitorRanks.find?
        (fun cr => cr.business.id == tEx.id)).isSome = true
    ∧ 1 ≤ (scanRankings (S := ℕ) tEx [bEx] 1 1 1 1 (fun _ _ => 0)).headI.rank
    ∧ (scanRankings (S := ℕ) tEx [bEx] 1 1 1 1 (fun _ _ => 0)).headI.rank ≤
        1 + [bEx].length :=
  C10_target_always_found tEx [bEx] 1 1 1 1 (fun _ _ => 0) _
    (headI_mem_of_ne _ (by decide))

end GMB
